import Mathlib

/-!
Verification of the monitor-live dashboard's aggregation and consistency core.

The definitions in this file are a shallow embedding of the TypeScript source
of the repository (LiveCard component, home page registry, and the chart
builder).  JavaScript strings are modelled as Lean strings compared by
code-unit order (the timestamps and minute keys in the source are ASCII, so
localeCompare agrees with code-unit order there); JavaScript numbers are
modelled exactly (Nat / Int / Rat); JavaScript Date parsing is modelled for
ISO-8601-shaped timestamps, with every other shape treated as an invalid date.
-/

namespace MonitorLive

/-- Lexicographic comparison of character lists, modelling JavaScript string
comparison via localeCompare on the ASCII data handled by the dashboard
(timestamps and minute keys). -/
def lexLe : List Char → List Char → Bool
  | [], _ => true
  | _ :: _, [] => false
  | a :: as, b :: bs => if a = b then lexLe as bs else decide (a < b)

theorem lexLe_refl : ∀ l : List Char, lexLe l l = true := by
  intro l
  induction l with
  | nil => rfl
  | cons a as ih => simp [lexLe, ih]

theorem lexLe_total : ∀ a b : List Char, lexLe a b = true ∨ lexLe b a = true := by
  intro a
  induction a with
  | nil => intro b; left; rfl
  | cons x xs ih =>
    intro b
    cases b with
    | nil => right; rfl
    | cons y ys =>
      by_cases hxy : x = y
      · subst hxy
        rcases ih ys with h | h
        · left; simp [lexLe, h]
        · right; simp [lexLe, h]
      · rcases lt_or_gt_of_ne hxy with h | h
        · left; simp [lexLe, hxy, h]
        · right; simp [lexLe, Ne.symm hxy, h]

theorem lexLe_trans :
    ∀ a b c : List Char, lexLe a b = true → lexLe b c = true → lexLe a c = true := by
  intro a
  induction a with
  | nil => intro b c _ _; rfl
  | cons x xs ih =>
    intro b c hab hbc
    cases b with
    | nil => simp [lexLe] at hab
    | cons y ys =>
      cases c with
      | nil => simp [lexLe] at hbc
      | cons z zs =>
        by_cases hxy : x = y
        · subst hxy
          by_cases hyz : x = z
          · subst hyz
            simp [lexLe] at hab hbc ⊢
            exact ih ys zs hab hbc
          · simp [lexLe, hyz] at hbc ⊢
            exact hbc
        · by_cases hyz : y = z
          · subst hyz
            simpa [lexLe, hxy] using hab
          · simp [lexLe, hxy] at hab
            simp [lexLe, hyz] at hbc
            have hxz : x < z := lt_trans hab hbc
            simp [lexLe, ne_of_lt hxz, hxz]

/-- Whitespace recognised by the model of JavaScript String.prototype.trim
(the whitespace actually occurring in the dashboard's category labels). -/
def isWs (c : Char) : Bool :=
  c = ' ' || c = '\t' || c = '\n' || c = '\r'

/-- Model of String.prototype.trim on character lists. -/
def jsTrim (cs : List Char) : List Char :=
  ((cs.dropWhile isWs).reverse.dropWhile isWs).reverse

/-- Model of String.prototype.toUpperCase for the character range the
dashboard handles: ASCII letters plus the Latin-1 accented lowercase block
(simple one-to-one case mapping). -/
def jsToUpper (c : Char) : Char :=
  if 'a' ≤ c ∧ c ≤ 'z' then Char.ofNat (c.toNat - 32)
  else if 0xE0 ≤ c.toNat ∧ c.toNat ≤ 0xFE ∧ c.toNat ≠ 0xF7 then Char.ofNat (c.toNat - 32)
  else c

/-- The uppercased and trimmed character list the normalizer matches on,
modelling raw.toUpperCase().trim() in the source. -/
def upperTrim (r : String) : List Char :=
  jsTrim (r.data.map jsToUpper)

/-- Word characters of the JavaScript regular-expression class backslash-w. -/
def isWordChar (c : Char) : Bool :=
  c.isAlphanum || c = '_'

/-- A regular-expression word boundary holds against a neighbouring character
that is absent or not a word character. -/
def boundaryOk : Option Char → Bool
  | none => true
  | some c => !isWordChar c

/-- Match a literal pattern at the head of a list, returning the remainder. -/
def matchHere : List Char → List Char → Option (List Char)
  | [], rest => some rest
  | _ :: _, [] => none
  | p :: ps, c :: cs => if p = c then matchHere ps cs else none

/-- Does the literal pattern match at the current position, with optional word
boundaries required on the left and right? -/
def headMatch (needL needR : Bool) (pat : List Char) (prev : Option Char)
    (s : List Char) : Bool :=
  match matchHere pat s with
  | some rest => (!needL || boundaryOk prev) && (!needR || boundaryOk rest.head?)
  | none => false

/-- Scan a list for an occurrence of a literal pattern with optional word
boundaries, carrying the previous character for the left boundary. -/
def findPat (needL needR : Bool) (pat : List Char) : Option Char → List Char → Bool
  | prev, [] => headMatch needL needR pat prev []
  | prev, c :: cs =>
    headMatch needL needR pat prev (c :: cs) || findPat needL needR pat (some c) cs

/-- Substring containment, modelling an unanchored regex literal alternative. -/
def containsPat (s pat : List Char) : Bool :=
  findPat false false pat none s

/-- Substring containment with a word boundary required after the match. -/
def containsPatEndB (s pat : List Char) : Bool :=
  findPat false true pat none s

/-- Substring containment with word boundaries required on both sides. -/
def containsPatBothB (s pat : List Char) : Bool :=
  findPat true true pat none s

/-- The audio rule of normalizeCategory. -/
def matchesAudio (u : List Char) : Bool :=
  containsPat u "AUDIO".data || containsPat u "ÁUDIO".data ||
    containsPatEndB u "SOM".data || containsPat u "NARR".data

/-- The video rule of normalizeCategory. -/
def matchesVideo (u : List Char) : Bool :=
  containsPat u "VIDEO".data || containsPat u "VÍDEO".data ||
    containsPat u "TELA".data || containsPat u "PIXEL".data ||
    containsPat u "IMAG".data || containsPat u "CONGEL".data

/-- The network rule of normalizeCategory. -/
def matchesRede (u : List Char) : Bool :=
  containsPat u "REDE".data || containsPat u "PLATAFORMA".data ||
    containsPat u "BUFFER".data || containsPat u "CAIU".data ||
    containsPat u "PLAT".data

/-- The scoreboard rule of normalizeCategory. -/
def matchesGC (u : List Char) : Bool :=
  containsPatBothB u "GC".data || containsPat u "PLACAR".data

/-- Embedding of normalizeCategory from the LiveCard source: falsy input maps
to null, otherwise the uppercased, trimmed input is matched against the four
ordered rules, first match wins, and anything else passes through. -/
def normalizeCategory (raw : Option String) : Option String :=
  match raw with
  | none => none
  | some r =>
    if r = "" then none
    else
      let u := upperTrim r
      if matchesAudio u then some "AUDIO"
      else if matchesVideo u then some "VIDEO"
      else if matchesRede u then some "REDE"
      else if matchesGC u then some "GC"
      else some (String.mk u)

/-- A chat message as decoded by the dashboard (lib/types.ts Comment). -/
structure Comment where
  id : String
  author : String
  text : String
  ts : String
  is_technical : Bool
  category : Option String
  issue : Option String
  severity : String
deriving DecidableEq

/-- One point of the per-minute chart (lib/types.ts ChartPoint). -/
structure ChartPoint where
  minute : String
  total : Int
  technical : Int
deriving DecidableEq

/-- A stream document as decoded by the home page (lib/types.ts Live);
issue_counts is modelled as an association list. -/
structure Live where
  video_id : String
  channel : String
  title : String
  url : String
  status : String
  started_at : String
  ended_at : Option String
  last_seen_at : String
  total_comments : Int
  technical_comments : Int
  issue_counts : List (String × Int)
deriving DecidableEq

/-- A raw document of the minutes subcollection as delivered to the qMinutes
subscription: document id plus the optional total and technical fields read
with a 0 fallback. -/
structure MinuteDoc where
  id : String
  total : Option Int
  technical : Option Int
deriving DecidableEq

/-- Model of minuteKeyFromTs from the LiveCard source: replace the first space
by a T unless the string already contains a T, then parse as a Date and format
to HH:mm.  Date parsing is modelled for ISO-8601-shaped strings; anything else
is an invalid date and yields none. -/
def replaceFirstSpaceWithT : List Char → List Char
  | [] => []
  | c :: rest => if c = ' ' then 'T' :: rest else c :: replaceFirstSpaceWithT rest

/-- Minute key HH:mm derived from a message timestamp, or none when the
timestamp does not parse (see replaceFirstSpaceWithT). -/
def minuteKeyFromTs (ts : String) : Option String :=
  let cs := if ts.data.contains 'T' then ts.data else replaceFirstSpaceWithT ts.data
  match cs with
  | y1 :: y2 :: y3 :: y4 :: '-' :: m1 :: m2 :: '-' :: d1 :: d2 :: 'T'
      :: h1 :: h2 :: ':' :: n1 :: n2 :: _ =>
    if y1.isDigit && y2.isDigit && y3.isDigit && y4.isDigit &&
        m1.isDigit && m2.isDigit && d1.isDigit && d2.isDigit &&
        h1.isDigit && h2.isDigit && n1.isDigit && n2.isDigit then
      some (String.mk [h1, h2, ':', n1, n2])
    else none
  | _ => none

/-- The visible technical feed of a stream: the canonical technical messages
with the locally dismissed identifiers filtered out, sorted newest first by
string comparison of ts (LiveCard visibleComments). -/
def visibleComments (allTech : List Comment) (dismissed : Finset String) : List Comment :=
  List.insertionSort (fun a b => lexLe b.ts.data a.ts.data = true)
    (allTech.filter (fun c => decide (c.id ∉ dismissed)))

/-- Number of visible technical messages whose timestamp falls in minute m
(the techByMinute lookup of chartDataDisplay, with its 0 fallback). -/
def techCountInMinute (visible : List Comment) (m : String) : Nat :=
  (visible.filter (fun c => decide (minuteKeyFromTs c.ts = some m))).length

/-- The displayed chart series (LiveCard chartDataDisplay): every persisted
point keeps its total, while its technical value is replaced by the count of
visible technical messages in that minute; points are sorted by minute key. -/
def chartDataDisplay (chartData : List ChartPoint) (visible : List Comment) :
    List ChartPoint :=
  List.insertionSort (fun a b => lexLe a.minute.data b.minute.data = true)
    (chartData.map (fun p => { p with technical := (techCountInMinute visible p.minute : Int) }))

/-- The HH:MM shape test applied to minute document ids in the qMinutes
subscription handler (the regex of two digits, a colon, two digits). -/
def validMinuteKey (s : String) : Bool :=
  match s.data with
  | [a, b, c, d, e] => a.isDigit && b.isDigit && c = ':' && d.isDigit && e.isDigit
  | _ => false

/-- The chartData state produced by the qMinutes subscription handler: keep
the documents whose id matches the HH:MM shape, read total and technical with
a 0 fallback, and sort by minute key. -/
def chartDataOf (docs : List MinuteDoc) : List ChartPoint :=
  List.insertionSort (fun a b => lexLe a.minute.data b.minute.data = true)
    ((docs.filter (fun d => validMinuteKey d.id)).map
      (fun d => { minute := d.id, total := d.total.getD 0, technical := d.technical.getD 0 }))

/-- Minute key used by buildChartData, which formats the parsed Date without a
guard; unparseable timestamps are collapsed into one invalid-date bucket. -/
def fmtMinute (ts : String) : String :=
  (minuteKeyFromTs ts).getD "Invalid Date"

/-- Local adjustment applied before chart building in the detail card: a
dismissed message is treated as non-technical. -/
def adjustDismissed (comments : List Comment) (dismissed : Finset String) : List Comment :=
  comments.map (fun c => if c.id ∈ dismissed then { c with is_technical := false } else c)

/-- Embedding of buildChartData: bucket the messages by minute, counting every
message in total and the technical ones in technical, and emit the buckets
sorted by minute key (the bucket record of the source is modelled by counting
the matching messages per key). -/
def buildChartData (comments : List Comment) : List ChartPoint :=
  let keys := (comments.map (fun c => fmtMinute c.ts)).dedup
  (List.insertionSort (fun a b => lexLe a.data b.data = true) keys).map (fun m =>
    { minute := m
      total := ((comments.filter (fun c => decide (fmtMinute c.ts = m))).length : Int)
      technical :=
        ((comments.filter (fun c => decide (fmtMinute c.ts = m) && c.is_technical)).length : Int) })

/-- The displayed technical rate (LiveCard techRate): Math.round of the ratio
of visible technical messages to total comments, with a floor of 1 on the
denominator; arithmetic is modelled exactly over the rationals. -/
def techRate (totalTechCount total_comments : Nat) : Int :=
  round (((totalTechCount : ℚ) / ((max total_comments 1 : Nat) : ℚ)) * 100)

/-- The technical-rate formula exactly as the specification words it:
round(100 * visible / max(total, 1)). -/
def techRateSpec (v t : Nat) : Int :=
  round (((100 * v : Nat) : ℚ) / ((max t 1 : Nat) : ℚ))

/-- JavaScript truthiness of an optional string field: null and the empty
string are falsy. -/
def truthyStr : Option String → Bool
  | none => false
  | some s => decide (s ≠ "")

/-- The issue_counts key written by dismiss: category colon issue. -/
def issueKey (c : Comment) : String :=
  c.category.getD "" ++ ":" ++ c.issue.getD ""

/-- One field-level canonical write issued through the document store. -/
inductive CanonWrite
  | setIsTechFalse (commentId : String)
  | incTechnicalComments (delta : Int)
  | incIssueCount (key : String) (delta : Int)
  | incMinuteTechnical (minute : String) (delta : Int)
deriving DecidableEq

/-- The ordered canonical writes issued by dismissComment for a message c:
set is_technical to false on the message, decrement technical_comments on the
stream (together with the issue_counts entry when category and issue are both
truthy), and decrement the technical counter of the minute bucket derived from
the message's own ts when that timestamp parses. -/
def dismissWrites (c : Comment) : List CanonWrite :=
  [CanonWrite.setIsTechFalse c.id, CanonWrite.incTechnicalComments (-1)] ++
    (if truthyStr c.category && truthyStr c.issue then
      [CanonWrite.incIssueCount (issueKey c) (-1)]
    else []) ++
    ((minuteKeyFromTs c.ts).elim [] (fun mk => [CanonWrite.incMinuteTechnical mk (-1)]))

/-- One local or canonical action of dismissComment, in program order. -/
inductive DismissAction
  | updateChart (minute : Option String)
  | addOverride (id : String)
  | canonical (w : CanonWrite)
deriving DecidableEq

/-- The full action trace of one dismissComment call: the optimistic local
chart adjustment, then the override-set insertion, then the canonical writes
in order. -/
def dismissTrace (c : Comment) : List DismissAction :=
  DismissAction.updateChart (minuteKeyFromTs c.ts) :: DismissAction.addOverride c.id ::
    (dismissWrites c).map DismissAction.canonical

/-- The canonical per-stream store the dismiss writes land in: the technical
flag per message id, the stream counters, and the per-minute technical
counters (issue_counts and minutes as total maps with integer counters). -/
structure Store where
  isTech : String → Bool
  technical_comments : Int
  issue_counts : String → Int
  minutes : String → Int

/-- Apply one canonical write to the store; increments commute and commit
independently of the current read value. -/
def applyWrite (s : Store) : CanonWrite → Store
  | CanonWrite.setIsTechFalse cid =>
    { s with isTech := fun k => if k = cid then false else s.isTech k }
  | CanonWrite.incTechnicalComments d =>
    { s with technical_comments := s.technical_comments + d }
  | CanonWrite.incIssueCount key d =>
    { s with issue_counts := fun k => if k = key then s.issue_counts k + d else s.issue_counts k }
  | CanonWrite.incMinuteTechnical m d =>
    { s with minutes := fun k => if k = m then s.minutes k + d else s.minutes k }

/-- Apply a list of canonical writes in order. -/
def applyWrites (s : Store) (ws : List CanonWrite) : Store :=
  ws.foldl applyWrite s

/-- Client plus canonical state affected by a dismiss call: the local override
set and the canonical store. -/
structure SysState where
  dismissed : Finset String
  store : Store

/-- One dismissComment call for message c: insert the id into the local
override set and issue the canonical writes; there is no membership check
gating the writes. -/
def dismissStep (sys : SysState) (c : Comment) : SysState :=
  { dismissed := insert c.id sys.dismissed
    store := applyWrites sys.store (dismissWrites c) }

/-- n repeated dismissComment calls for the same message. -/
def dismissRepeat (c : Comment) : Nat → SysState → SysState
  | 0, sys => sys
  | n + 1, sys => dismissRepeat c n (dismissStep sys c)

/-- Indicator of the issue_counts key affected by dismissing c: 1 on the
category colon issue key when both fields are truthy, else 0. -/
def issueDelta (c : Comment) (k : String) : Int :=
  if (truthyStr c.category && truthyStr c.issue) = true ∧ k = issueKey c then 1 else 0

/-- Indicator of the minute bucket affected by dismissing c. -/
def minuteDelta (c : Comment) (m : String) : Int :=
  if minuteKeyFromTs c.ts = some m then 1 else 0

/-- The change type of one entry of docChanges() on a snapshot. -/
inductive ChangeType
  | added
  | modified
  | removed
deriving DecidableEq

/-- One delivery of the technical-message subscription: the full document set
of the snapshot plus the change types of its docChanges() entries (the
document payloads of the changes are not consulted by the handler). -/
structure TechSnapshot where
  docs : List Comment
  changes : List ChangeType
deriving DecidableEq

/-- The component state the qTech onSnapshot handler works on: the
snapshot-ready flag, the alert counter, and the stored technical feed. -/
structure TechFeedState where
  ready : Bool
  alertKey : Nat
  allTech : List Comment
deriving DecidableEq

/-- The initial state at subscription setup: techSnapshotReadyRef is reset to
false and alertKey starts at 0. -/
def techFeedInit : TechFeedState :=
  { ready := false, alertKey := 0, allTech := [] }

/-- Does a delivered changeset contain at least one added entry? -/
def hasAdded (snap : TechSnapshot) : Bool :=
  snap.changes.any (fun ch => ch == ChangeType.added)

/-- One execution of the qTech onSnapshot handler: the alert fires only when
the ready flag was already set and the changeset contains an added entry, the
feed is replaced by the snapshot's documents, and the ready flag is set. -/
def techFeedStep (st : TechFeedState) (snap : TechSnapshot) : TechFeedState :=
  let hasNewTech := st.ready && hasAdded snap
  { ready := true
    alertKey := if hasNewTech then st.alertKey + 1 else st.alertKey
    allTech := snap.docs }

/-- Run the handler over a sequence of deliveries from the initial state. -/
def techFeedRun (snaps : List TechSnapshot) : TechFeedState :=
  snaps.foldl techFeedStep techFeedInit

/-- The stable-order registry update of the home page onSnapshot handler:
identifiers never seen before are appended, in snapshot order, to the end of
the remembered order. -/
def registryStep (order : List String) (ids : List String) : List String :=
  order ++ ids.filter (fun id => decide (id ∉ order))

/-- The displayed stream list: the snapshot's streams sorted by the index of
their id in the updated remembered order. -/
def displayedLives (order : List String) (data : List Live) : List Live :=
  let order2 := registryStep order (data.map (fun l => l.video_id))
  List.insertionSort
    (fun a b => order2.indexOf a.video_id ≤ order2.indexOf b.video_id) data

/-- A concrete technical message used to evaluate the development. -/
def exComment : Comment :=
  { id := "c1", author := "ana", text := "sem som", ts := "2026-02-20 12:34:56"
    is_technical := true, category := some "audio", issue := some "sem_som"
    severity := "high" }

/-- Three pre-existing technical messages for the first-snapshot scenario. -/
def exDocs3 : List Comment :=
  [{ exComment with id := "c1" }, { exComment with id := "c2" }, { exComment with id := "c3" }]

/-- A concrete canonical store with nonzero counters. -/
def exStore : Store :=
  { isTech := fun _ => true, technical_comments := 5
    issue_counts := fun _ => 3, minutes := fun _ => 4 }

/-- A concrete client-plus-store state with an empty override set. -/
def exSys : SysState :=
  { dismissed := ∅, store := exStore }

/-- First delivery: a full snapshot of three pre-existing technical messages,
all reported as added entries. -/
def exSnap0 : TechSnapshot :=
  { docs := exDocs3, changes := [ChangeType.added, ChangeType.added, ChangeType.added] }

/-- Second delivery: one genuinely new technical message. -/
def exSnap1 : TechSnapshot :=
  { docs := { exComment with id := "c4" } :: exDocs3, changes := [ChangeType.added] }

/-- A delivery carrying two genuinely new technical messages in one changeset. -/
def exSnap2 : TechSnapshot :=
  { docs := { exComment with id := "c4" } :: { exComment with id := "c5" } :: exDocs3
    changes := [ChangeType.added, ChangeType.added] }

/-- A persisted minute document with a positive technical counter. -/
def exMinDoc : MinuteDoc :=
  { id := "10:31", total := some 7, technical := some 5 }

/-- A persisted document whose id does not match the HH:MM shape. -/
def exBadDoc : MinuteDoc :=
  { id := "summary", total := some 9, technical := some 9 }

/-- A visible technical message in minute 10:30. -/
def exVis1030 : Comment :=
  { exComment with id := "v1", ts := "2026-02-20 10:30:12" }

/-- A persisted chart point used to evaluate chartDataDisplay. -/
def exChartPoint : ChartPoint :=
  { minute := "10:31", total := 7, technical := 5 }

/-- A concrete stream document for the registry scenario. -/
def exLiveB : Live :=
  { video_id := "B", channel := "ch", title := "b", url := "", status := "active"
    started_at := "", ended_at := none, last_seen_at := "", total_comments := 0
    technical_comments := 0, issue_counts := [] }

/-- A second stream, first observed after exLiveB. -/
def exLiveA : Live :=
  { exLiveB with video_id := "A" }

/-- The stream exLiveA after it has received further updates. -/
def exLiveA2 : Live :=
  { exLiveA with total_comments := 10 }

instance tsDescTotal : IsTotal Comment (fun a b => lexLe b.ts.data a.ts.data = true) :=
  ⟨fun a b => lexLe_total b.ts.data a.ts.data⟩

instance tsDescTrans : IsTrans Comment (fun a b => lexLe b.ts.data a.ts.data = true) :=
  ⟨fun _ _ _ hab hbc => lexLe_trans _ _ _ hbc hab⟩

instance minuteAscTotal : IsTotal ChartPoint (fun a b => lexLe a.minute.data b.minute.data = true) :=
  ⟨fun a b => lexLe_total a.minute.data b.minute.data⟩

instance minuteAscTrans : IsTrans ChartPoint (fun a b => lexLe a.minute.data b.minute.data = true) :=
  ⟨fun _ _ _ hab hbc => lexLe_trans _ _ _ hab hbc⟩

instance keyAscTotal : IsTotal String (fun a b => lexLe a.data b.data = true) :=
  ⟨fun a b => lexLe_total a.data b.data⟩

instance keyAscTrans : IsTrans String (fun a b => lexLe a.data b.data = true) :=
  ⟨fun _ _ _ hab hbc => lexLe_trans _ _ _ hab hbc⟩

instance liveIdxTotal (o : List String) :
    IsTotal Live (fun a b => o.indexOf a.video_id ≤ o.indexOf b.video_id) :=
  ⟨fun a b => Nat.le_total (o.indexOf a.video_id) (o.indexOf b.video_id)⟩

instance liveIdxTrans (o : List String) :
    IsTrans Live (fun a b => o.indexOf a.video_id ≤ o.indexOf b.video_id) :=
  ⟨fun _ _ _ hab hbc => le_trans hab hbc⟩

/-- C4: the visible technical set is exactly the canonical technical messages
minus the override-set members, ordered newest-first by lexicographic string
comparison of their ts fields. -/
theorem visibleComments_spec (allTech : List Comment) (D : Finset String) :
    (∀ c : Comment, c ∈ visibleComments allTech D ↔ c ∈ allTech ∧ c.id ∉ D) ∧
    (visibleComments allTech D).Perm (allTech.filter (fun c => decide (c.id ∉ D))) ∧
    (visibleComments allTech D).Pairwise (fun a b => lexLe b.ts.data a.ts.data = true) := by
  refine ⟨?_, ?_, ?_⟩
  · intro c
    rw [visibleComments, List.mem_insertionSort, List.mem_filter]
    simp
  · exact List.perm_insertionSort _ _
  · exact List.sorted_insertionSort _ _

/-- C6: every displayed chart point keeps the total of a persisted point with
the same minute, while its technical value is recomputed as the number of
visible technical messages in that minute; conversely every persisted point
appears with its total kept and its technical value recomputed. -/
theorem chartDataDisplay_spec (chartData : List ChartPoint) (visible : List Comment) :
    (∀ p ∈ chartDataDisplay chartData visible,
        p.technical = (techCountInMinute visible p.minute : Int) ∧
        ∃ q ∈ chartData, q.minute = p.minute ∧ q.total = p.total) ∧
    (∀ q ∈ chartData, ∃ p ∈ chartDataDisplay chartData visible,
        p.minute = q.minute ∧ p.total = q.total ∧
        p.technical = (techCountInMinute visible q.minute : Int)) := by
  constructor
  · intro p hp
    rw [chartDataDisplay, List.mem_insertionSort, List.mem_map] at hp
    rcases hp with ⟨q, hq, rfl⟩
    exact ⟨rfl, q, hq, rfl, rfl⟩
  · intro q hq
    refine ⟨{ q with technical := (techCountInMinute visible q.minute : Int) }, ?_, rfl, rfl, rfl⟩
    rw [chartDataDisplay, List.mem_insertionSort, List.mem_map]
    exact ⟨q, hq, rfl⟩

/-- Witness for C6 at a concrete persisted point and empty visible set. -/
theorem chartDataDisplay_spec_witness :
    (ChartPoint.mk "10:31" 7 0).technical =
        (techCountInMinute [] (ChartPoint.mk "10:31" 7 0).minute : Int) ∧
    ∃ q ∈ [exChartPoint], q.minute = (ChartPoint.mk "10:31" 7 0).minute ∧
        q.total = (ChartPoint.mk "10:31" 7 0).total :=
  (chartDataDisplay_spec [exChartPoint] []).1 (ChartPoint.mk "10:31" 7 0) (by decide)

/-- Counting helper: with duplicate-free document ids, exactly one document
matches a valid id taken from the list. -/
theorem countP_doc_id_unique {docs : List MinuteDoc} {d : MinuteDoc}
    (hnd : (docs.map MinuteDoc.id).Nodup) (hd : d ∈ docs)
    (hv : validMinuteKey d.id = true) :
    docs.countP (fun x => validMinuteKey x.id && decide (x.id = d.id)) = 1 := by
  induction docs with
  | nil => cases hd
  | cons a l ih =>
    rw [List.map_cons, List.nodup_cons] at hnd
    rcases List.mem_cons.mp hd with rfl | hd'
    · rw [List.countP_cons_of_pos _ _ (by simp [hv])]
      have hzero : l.countP (fun x => validMinuteKey x.id && decide (x.id = d.id)) = 0 := by
        rw [List.countP_eq_zero]
        intro x hx
        have hne : x.id ≠ d.id := by
          intro he
          exact hnd.1 (he ▸ List.mem_map_of_mem MinuteDoc.id hx)
        simp [hne]
      omega
    · have hne : a.id ≠ d.id := by
        intro he
        exact hnd.1 (he ▸ List.mem_map_of_mem MinuteDoc.id hd')
      rw [List.countP_cons_of_neg _ _ (by simp [hne])]
      exact ih hnd.2 hd'

/-- C10: the displayed chart has exactly one point per persisted minute
document whose id matches the HH:MM shape; every displayed point's technical
value comes from the visible set; a minute with visible messages but no
persisted document yields no point, and a persisted bucket with a positive
technical counter but no visible messages is shown with technical 0. -/
theorem chart_one_point_per_doc (docs : List MinuteDoc) (visible : List Comment) :
    (∀ m : String,
        (chartDataDisplay (chartDataOf docs) visible).countP (fun p => decide (p.minute = m)) =
          docs.countP (fun d => validMinuteKey d.id && decide (d.id = m))) ∧
    (∀ p ∈ chartDataDisplay (chartDataOf docs) visible,
        p.technical = (techCountInMinute visible p.minute : Int)) ∧
    ((docs.map MinuteDoc.id).Nodup → ∀ d ∈ docs, validMinuteKey d.id = true →
        (chartDataDisplay (chartDataOf docs) visible).countP
          (fun p => decide (p.minute = d.id)) = 1) ∧
    chartDataDisplay (chartDataOf [exMinDoc, exBadDoc]) [exVis1030] =
        [ChartPoint.mk "10:31" 7 0] ∧
    (chartDataDisplay (chartDataOf [exMinDoc, exBadDoc]) [exVis1030]).countP
        (fun p => decide (p.minute = "10:30")) = 0 ∧
    techCountInMinute [exVis1030] "10:30" = 1 := by
  have key : ∀ m : String,
      (chartDataDisplay (chartDataOf docs) visible).countP (fun p => decide (p.minute = m)) =
        docs.countP (fun d => validMinuteKey d.id && decide (d.id = m)) := by
    intro m
    rw [chartDataDisplay, (List.perm_insertionSort _ _).countP_eq, List.countP_map,
      chartDataOf, (List.perm_insertionSort _ _).countP_eq, List.countP_map,
      List.countP_filter]
    refine List.countP_congr ?_
    intro d _
    simp [Function.comp, Bool.and_comm]
  refine ⟨key, ?_, ?_, by decide, by decide, by decide⟩
  · intro p hp
    rw [chartDataDisplay, List.mem_insertionSort, List.mem_map] at hp
    rcases hp with ⟨q, _, rfl⟩
    rfl
  · intro hnd d hd hv
    rw [key d.id]
    exact countP_doc_id_unique hnd hd hv

/-- Witness for C10 at one concrete persisted minute document. -/
theorem chart_one_point_per_doc_witness :
    (chartDataDisplay (chartDataOf [exMinDoc]) []).countP
        (fun p => decide (p.minute = exMinDoc.id)) = 1 :=
  (chart_one_point_per_doc [exMinDoc] []).2.2.1 (by decide) exMinDoc (by decide) (by decide)

/-- C8: after one aggregation step over the dismissal-adjusted message set,
every minute bucket of buildChartData satisfies technical less-or-equal
total. -/
theorem buildChartData_tech_le_total (comments : List Comment) (dismissed : Finset String) :
    ∀ p ∈ buildChartData (adjustDismissed comments dismissed), p.technical ≤ p.total := by
  intro p hp
  simp only [buildChartData, List.mem_map] at hp
  rcases hp with ⟨m, _, rfl⟩
  simp only
  have h := List.countP_mono_left (l := adjustDismissed comments dismissed)
    (p := fun c => decide (fmtMinute c.ts = m) && c.is_technical)
    (q := fun c => decide (fmtMinute c.ts = m)) ?_
  · rw [List.countP_eq_length_filter, List.countP_eq_length_filter] at h
    exact_mod_cast h
  · intro x _ hx
    exact ((Bool.and_eq_true _ _).mp hx).1

/-- Witness for C8 at a one-message input. -/
theorem buildChartData_tech_le_total_witness :
    (ChartPoint.mk "12:34" 1 1).technical ≤ (ChartPoint.mk "12:34" 1 1).total :=
  buildChartData_tech_le_total [exComment] ∅ (ChartPoint.mk "12:34" 1 1) (by decide)

/-- Dismissing a message that is still visible shrinks the filtered canonical
feed by exactly one element when message ids are duplicate-free. -/
theorem filter_not_insert_length {allTech : List Comment} {D : Finset String} {c : Comment}
    (hc : c ∈ allTech) (hcD : c.id ∉ D) (hnd : (allTech.map Comment.id).Nodup) :
    (allTech.filter (fun x => decide (x.id ∉ insert c.id D))).length + 1 =
      (allTech.filter (fun x => decide (x.id ∉ D))).length := by
  induction allTech with
  | nil => cases hc
  | cons a l ih =>
    rw [List.map_cons, List.nodup_cons] at hnd
    rcases List.mem_cons.mp hc with rfl | hc'
    · rw [List.filter_cons, List.filter_cons]
      have h1 : (decide (c.id ∉ insert c.id D)) = false := by simp
      have h2 : (decide (c.id ∉ D)) = true := by simpa using hcD
      rw [h1, h2]
      have hfe : l.filter (fun x => decide (x.id ∉ insert c.id D)) =
          l.filter (fun x => decide (x.id ∉ D)) := by
        refine List.filter_congr ?_
        intro x hx
        have hne : x.id ≠ c.id := by
          intro he
          exact hnd.1 (he ▸ List.mem_map_of_mem Comment.id hx)
        simp [Finset.mem_insert, hne]
      rw [hfe]
      simp
    · have hne : a.id ≠ c.id := by
        intro he
        exact hnd.1 (he ▸ List.mem_map_of_mem Comment.id hc')
      rw [List.filter_cons, List.filter_cons]
      have hsame : (decide (a.id ∉ insert c.id D)) = (decide (a.id ∉ D)) := by
        simp [Finset.mem_insert, hne]
      rw [hsame]
      cases hD : decide (a.id ∉ D) with
      | true => simpa using ih hc' hnd.2
      | false => simpa using ih hc' hnd.2

/-- C5: the displayed technical rate agrees with the specification formula
round(100 * visible / max(total, 1)); with 12 visible technical messages out
of 100 comments the rate is 12, with 11 it is 11, and dismissing one visible
message decreases the visible count by exactly one. -/
theorem techRate_matches_spec :
    (∀ v t : Nat, techRate v t = techRateSpec v t) ∧
    techRate 12 100 = 12 ∧ techRate 11 100 = 11 ∧ techRate 0 0 = 0 ∧
    (∀ (allTech : List Comment) (D : Finset String) (c : Comment),
        c ∈ allTech → c.id ∉ D → (allTech.map Comment.id).Nodup →
        (visibleComments allTech (insert c.id D)).length + 1 =
          (visibleComments allTech D).length) := by
  refine ⟨?_, by norm_num [techRate, round_eq], by norm_num [techRate, round_eq],
    by norm_num [techRate, round_eq], ?_⟩
  · intro v t
    unfold techRate techRateSpec
    congr 1
    push_cast
    ring
  · intro allTech D c hc hcD hnd
    rw [visibleComments, visibleComments,
      (List.perm_insertionSort _ _).length_eq, (List.perm_insertionSort _ _).length_eq]
    exact filter_not_insert_length hc hcD hnd

/-- Witness for C5: dismissing the only visible message takes the visible
count from one to zero. -/
theorem techRate_matches_spec_witness :
    (visibleComments [exComment] (insert exComment.id ∅)).length + 1 =
      (visibleComments [exComment] (∅ : Finset String)).length :=
  techRate_matches_spec.2.2.2.2 [exComment] ∅ exComment (by decide) (by decide) (by decide)

/-- C7 (amended): null and empty input normalize to null; the four rules are
applied in order with first match winning; any input matching no rule passes
through as its uppercased, whitespace-trimmed value (open taxonomy); concrete
family representatives land in their buckets. -/
theorem normalizeCategory_spec :
    normalizeCategory none = none ∧
    normalizeCategory (some "") = none ∧
    (∀ r : String, r ≠ "" → matchesAudio (upperTrim r) = true →
        normalizeCategory (some r) = some "AUDIO") ∧
    (∀ r : String, r ≠ "" → matchesAudio (upperTrim r) = false →
        matchesVideo (upperTrim r) = true → normalizeCategory (some r) = some "VIDEO") ∧
    (∀ r : String, r ≠ "" → matchesAudio (upperTrim r) = false →
        matchesVideo (upperTrim r) = false → matchesRede (upperTrim r) = true →
        normalizeCategory (some r) = some "REDE") ∧
    (∀ r : String, r ≠ "" → matchesAudio (upperTrim r) = false →
        matchesVideo (upperTrim r) = false → matchesRede (upperTrim r) = false →
        matchesGC (upperTrim r) = true → normalizeCategory (some r) = some "GC") ∧
    (∀ r : String, r ≠ "" → matchesAudio (upperTrim r) = false →
        matchesVideo (upperTrim r) = false → matchesRede (upperTrim r) = false →
        matchesGC (upperTrim r) = false →
        normalizeCategory (some r) = some (String.mk (upperTrim r))) ∧
    normalizeCategory (some "som ruim") = some "AUDIO" ∧
    normalizeCategory (some "Tela preta") = some "VIDEO" ∧
    normalizeCategory (some "buffering") = some "REDE" ∧
    normalizeCategory (some "placar errado") = some "GC" ∧
    normalizeCategory (some "audio do video") = some "AUDIO" ∧
    normalizeCategory (some "iluminação") = some "ILUMINAÇÃO" := by
  refine ⟨by decide, by decide, ?_, ?_, ?_, ?_, ?_,
    by decide, by decide, by decide, by decide, by decide, by decide⟩
  · intro r h0 h1
    simp [normalizeCategory, h0, h1]
  · intro r h0 h1 h2
    simp [normalizeCategory, h0, h1, h2]
  · intro r h0 h1 h2 h3
    simp [normalizeCategory, h0, h1, h2, h3]
  · intro r h0 h1 h2 h3 h4
    simp [normalizeCategory, h0, h1, h2, h3, h4]
  · intro r h0 h1 h2 h3 h4
    simp [normalizeCategory, h0, h1, h2, h3, h4]

/-- Witness for C7 on the audio branch at a concrete input. -/
theorem normalizeCategory_spec_witness :
    normalizeCategory (some "sem audio") = some "AUDIO" :=
  normalizeCategory_spec.2.2.1 "sem audio" (by decide) (by decide)

/-- Counterexample for C7 as stated: an input with surrounding whitespace is
not passed through as its uppercased value; the code also trims it. -/
theorem normalizeCategory_trims_pass_through :
    normalizeCategory (some " x ") = some "X" ∧
    String.mk (" x ".data.map jsToUpper) = " X " ∧
    normalizeCategory (some " x ") ≠ some (String.mk (" x ".data.map jsToUpper)) := by
  decide

/-- Effect of one dismiss on the message flag: only the dismissed message's
is_technical flag is cleared. -/
theorem dismiss_store_isTech (c : Comment) (s : Store) (k : String) :
    (applyWrites s (dismissWrites c)).isTech k = if k = c.id then false else s.isTech k := by
  cases hmk : minuteKeyFromTs c.ts <;>
    cases hti : truthyStr c.category && truthyStr c.issue <;>
      simp [dismissWrites, applyWrites, applyWrite, hmk, hti]

/-- Effect of one dismiss on the stream counter: technical_comments drops by
exactly one. -/
theorem dismiss_store_technical (c : Comment) (s : Store) :
    (applyWrites s (dismissWrites c)).technical_comments = s.technical_comments - 1 := by
  cases hmk : minuteKeyFromTs c.ts <;>
    cases hti : truthyStr c.category && truthyStr c.issue <;>
      simp [dismissWrites, applyWrites, applyWrite, hmk, hti] <;> ring

/-- Effect of one dismiss on issue_counts: the category colon issue key drops
by one exactly when both fields are truthy; other keys are unchanged. -/
theorem dismiss_store_issue (c : Comment) (s : Store) (k : String) :
    (applyWrites s (dismissWrites c)).issue_counts k = s.issue_counts k - issueDelta c k := by
  cases hmk : minuteKeyFromTs c.ts <;>
    cases hti : truthyStr c.category && truthyStr c.issue <;>
      simp [dismissWrites, applyWrites, applyWrite, issueDelta, hmk, hti] <;>
        split_ifs <;> ring

/-- Effect of one dismiss on the minute buckets: only the bucket derived from
the message's own ts drops, and only when that timestamp parses. -/
theorem dismiss_store_minutes (c : Comment) (s : Store) (m : String) :
    (applyWrites s (dismissWrites c)).minutes m = s.minutes m - minuteDelta c m := by
  cases hmk : minuteKeyFromTs c.ts with
  | none =>
    cases hti : truthyStr c.category && truthyStr c.issue <;>
      simp [dismissWrites, applyWrites, applyWrite, minuteDelta, hmk, hti]
  | some mk =>
    by_cases hm : m = mk
    · subst hm
      cases hti : truthyStr c.category && truthyStr c.issue <;>
        simp [dismissWrites, applyWrites, applyWrite, minuteDelta, hmk, hti,
          sub_eq_add_neg]
    · have hm2 : mk ≠ m := fun h => hm h.symm
      cases hti : truthyStr c.category && truthyStr c.issue <;>
        simp [dismissWrites, applyWrites, applyWrite, minuteDelta, hmk, hti, hm, hm2]

/-- C3: dismiss adds the id to the local override set before any canonical
write, then issues the canonical writes in order: clear is_technical on the
message, decrement technical_comments, decrement the category colon issue
entry exactly when both fields are truthy, and decrement the technical counter
of the minute bucket derived from the message's own ts (the write list is a
pure function of the message, independent of any clock). -/
theorem dismissComment_spec (c : Comment) (s : Store) (k m : String) :
    (dismissTrace c).drop 1 = DismissAction.addOverride c.id ::
        (dismissWrites c).map DismissAction.canonical ∧
    dismissWrites c =
        [CanonWrite.setIsTechFalse c.id, CanonWrite.incTechnicalComments (-1)] ++
          (if truthyStr c.category && truthyStr c.issue then
            [CanonWrite.incIssueCount (issueKey c) (-1)]
          else []) ++
          ((minuteKeyFromTs c.ts).elim []
            (fun mk => [CanonWrite.incMinuteTechnical mk (-1)])) ∧
    (applyWrites s (dismissWrites c)).isTech k = (if k = c.id then false else s.isTech k) ∧
    (applyWrites s (dismissWrites c)).technical_comments = s.technical_comments - 1 ∧
    (applyWrites s (dismissWrites c)).issue_counts k = s.issue_counts k - issueDelta c k ∧
    (applyWrites s (dismissWrites c)).minutes m = s.minutes m - minuteDelta c m :=
  ⟨rfl, rfl, dismiss_store_isTech c s k, dismiss_store_technical c s,
    dismiss_store_issue c s k, dismiss_store_minutes c s m⟩

/-- C1 (amended): repeated dismiss calls are not gated by a membership check:
n calls decrement technical_comments, the matching issue_counts entry and the
affected minute bucket by n each, while the override-set insertion itself is
idempotent. -/
theorem dismissRepeat_spec (c : Comment) (sys : SysState) (n : Nat) (k m : String) :
    (dismissRepeat c n sys).store.technical_comments =
        sys.store.technical_comments - n ∧
    (dismissRepeat c n sys).store.issue_counts k =
        sys.store.issue_counts k - n * issueDelta c k ∧
    (dismissRepeat c n sys).store.minutes m = sys.store.minutes m - n * minuteDelta c m ∧
    (dismissRepeat c n sys).dismissed =
        (if n = 0 then sys.dismissed else insert c.id sys.dismissed) := by
  induction n generalizing sys with
  | zero => simp [dismissRepeat]
  | succ n ih =>
    rcases ih (dismissStep sys c) with ⟨h1, h2, h3, h4⟩
    rw [dismissRepeat] at *
    refine ⟨?_, ?_, ?_, ?_⟩
    · rw [h1]
      show (applyWrites sys.store (dismissWrites c)).technical_comments - (n : Int) = _
      rw [dismiss_store_technical]
      push_cast
      ring
    · rw [h2]
      show (applyWrites sys.store (dismissWrites c)).issue_counts k - n * issueDelta c k = _
      rw [dismiss_store_issue]
      push_cast
      ring
    · rw [h3]
      show (applyWrites sys.store (dismissWrites c)).minutes m - n * minuteDelta c m = _
      rw [dismiss_store_minutes]
      push_cast
      ring
    · rw [h4]
      rcases Nat.eq_zero_or_pos n with rfl | hn
      · simp [dismissStep]
      · simp [dismissStep, Nat.pos_iff_ne_zero.mp hn, Finset.insert_idem]

/-- Witness for C1 at two calls on a concrete state: the counters drop by two
and the override set is the singleton. -/
theorem dismissRepeat_spec_witness :
    (dismissRepeat exComment 2 exSys).store.technical_comments =
        exSys.store.technical_comments - 2 ∧
    (dismissRepeat exComment 2 exSys).store.issue_counts "audio:sem_som" =
        exSys.store.issue_counts "audio:sem_som" - 2 * issueDelta exComment "audio:sem_som" ∧
    (dismissRepeat exComment 2 exSys).store.minutes "12:34" =
        exSys.store.minutes "12:34" - 2 * minuteDelta exComment "12:34" ∧
    (dismissRepeat exComment 2 exSys).dismissed =
        (if 2 = 0 then exSys.dismissed else insert exComment.id exSys.dismissed) :=
  dismissRepeat_spec exComment exSys 2 "audio:sem_som" "12:34"

/-- Counterexample for C1 as stated: two dismiss calls for the same identifier
decrement technical_comments by two, not by one in total. -/
theorem dismiss_double_decrements :
    (dismissRepeat exComment 2 exSys).store.technical_comments = 3 ∧
    exSys.store.technical_comments - 1 = 4 ∧
    (dismissRepeat exComment 2 exSys).store.technical_comments ≠
      exSys.store.technical_comments - 1 := by
  decide

/-- Once the ready flag is set, each further delivery bumps the alert counter
exactly when its changeset contains an added entry. -/
theorem techFeed_foldl_alertKey (snaps : List TechSnapshot) (st : TechFeedState)
    (h : st.ready = true) :
    (snaps.foldl techFeedStep st).alertKey = st.alertKey + snaps.countP hasAdded := by
  induction snaps generalizing st with
  | nil => simp
  | cons s rest ih =>
    rw [List.foldl_cons, ih (techFeedStep st s) rfl, List.countP_cons]
    cases ha : hasAdded s <;> simp [techFeedStep, h, ha] <;> omega

/-- C2 (amended): the new-incident signal never fires on the first delivered
snapshot, whatever it contains, and afterwards fires once per delivered
changeset containing at least one added entry; in the scenario, a first
snapshot of three pre-existing technical messages leaves the count at 0 and a
later delivery with one new message raises it to 1. -/
theorem alertKey_counts_changesets (s0 : TechSnapshot) (rest : List TechSnapshot) :
    (techFeedRun (s0 :: rest)).alertKey = rest.countP hasAdded ∧
    (techFeedRun [s0]).alertKey = 0 ∧
    (techFeedRun [exSnap0]).alertKey = 0 ∧
    (techFeedRun [exSnap0, exSnap1]).alertKey = 1 ∧
    (techFeedRun [exSnap0]).allTech.length = 3 := by
  have key : (techFeedRun (s0 :: rest)).alertKey = rest.countP hasAdded := by
    rw [techFeedRun, List.foldl_cons,
      techFeed_foldl_alertKey rest (techFeedStep techFeedInit s0) rfl]
    simp [techFeedStep, techFeedInit]
  refine ⟨key, ?_, by decide, by decide, by decide⟩
  rw [techFeedRun, List.foldl_cons]
  simp [techFeedStep, techFeedInit]

/-- Counterexample for C2 as stated: a post-snapshot delivery carrying two
added entries (two genuinely new technical messages) fires the signal once,
not once per message. -/
theorem alertKey_not_per_message :
    (techFeedRun [exSnap0, exSnap2]).alertKey = 1 ∧
    exSnap2.changes.countP (fun ch => ch == ChangeType.added) = 2 ∧
    (techFeedRun [exSnap0, exSnap2]).alertKey ≠
      exSnap2.changes.countP (fun ch => ch == ChangeType.added) := by
  decide

/-- C9: the remembered registry order only ever grows by appending, so a
stream's position is assigned on first observation and kept afterwards; the
displayed list is the snapshot reordered by that registry order; in the
scenario, B observed before A yields the order B then A, which later updates
to A do not change. -/
theorem registry_stable_order :
    (∀ order ids : List String, ∃ t, registryStep order ids = order ++ t) ∧
    (∀ (order ids : List String) (sid : String), sid ∈ order →
        (registryStep order ids).indexOf sid = order.indexOf sid) ∧
    (∀ (order : List String) (data : List Live),
        (displayedLives order data).Perm data) ∧
    (∀ (order : List String) (data : List Live),
        (displayedLives order data).Pairwise (fun a b =>
          (registryStep order (data.map (fun l => l.video_id))).indexOf a.video_id ≤
            (registryStep order (data.map (fun l => l.video_id))).indexOf b.video_id)) ∧
    registryStep [] ["B"] = ["B"] ∧
    registryStep ["B"] ["A", "B"] = ["B", "A"] ∧
    displayedLives ["B"] [exLiveA, exLiveB] = [exLiveB, exLiveA] ∧
    displayedLives ["B", "A"] [exLiveA2, exLiveB] = [exLiveB, exLiveA2] := by
  refine ⟨?_, ?_, ?_, ?_, by decide, by decide, by decide, by decide⟩
  · intro order ids
    exact ⟨ids.filter (fun id => decide (id ∉ order)), rfl⟩
  · intro order ids sid hs
    exact List.indexOf_append_of_mem hs
  · intro order data
    exact List.perm_insertionSort _ _
  · intro order data
    exact List.sorted_insertionSort _ _

/-- Witness for C9: an id already in the registry keeps its index across an
update that brings new ids. -/
theorem registry_stable_order_witness :
    (registryStep ["B"] ["A"]).indexOf "B" = (["B"] : List String).indexOf "B" :=
  registry_stable_order.2.1 ["B"] ["A"] "B" (by decide)

end MonitorLive
